import Mathlib

/-
  Verification of the Unix-domain socket subsystem (libos/src/net):
  a shallow embedding of the address model (socket_file/address.rs,
  socket_file/protocol_family.rs, unix_socket/unix_addr.rs), the in-enclave
  stream engine (unix_socket/stream.rs) and the router (unix_socket/unix_socket.rs),
  together with theorems settling the frozen claims about them.
-/

set_option maxHeartbeats 1000000

namespace OcclumNet

/-- Bytes of untrusted memory and of Unix paths (Rust u8). -/
abbrev Byte := Fin 256

/-- The errno values produced by the embedded functions (errno! / return_errno! in the source). -/
inductive Errno where
  | EINVAL
  | EAGAIN
  | ENAMETOOLONG
  | ECONNREFUSED
  | EADDRINUSE
  | ENOTCONN
  | EAFNOSUPPORT
  | EPROTONOSUPPORT
  | EOPNOTSUPP
  deriving DecidableEq, Repr

/-- ProtocolFamily::PF_LOCAL as a u16 discriminant (protocol_family.rs). -/
def PF_LOCAL : Nat := 1

/-- ProtocolFamily::PF_MAX as a u16 discriminant (protocol_family.rs). -/
def PF_MAX : Nat := 45

/-- MAX_PATH_LEN in unix_addr.rs. -/
def MAX_PATH_LEN : Nat := 108

/-- Continuation byte test of the UTF-8 validation done by str::from_utf8:
a byte in 0x80..=0xBF. -/
def isCont (b : Byte) : Bool := 0x80 ≤ b.val && b.val ≤ 0xBF

/-- UTF-8 validity of a byte sequence, as checked by str::from_utf8 in
SockAddr::try_from_raw (address.rs): the standard well-formedness rules for
1- to 4-byte sequences, rejecting overlong forms, surrogates and values
above U+10FFFF. -/
def utf8Valid : List Byte → Bool
  | [] => true
  | b :: rest =>
    if b.val ≤ 0x7F then utf8Valid rest
    else if 0xC2 ≤ b.val && b.val ≤ 0xDF then
      match rest with
      | c :: r => isCont c && utf8Valid r
      | [] => false
    else if 0xE0 ≤ b.val && b.val ≤ 0xEF then
      match rest with
      | c1 :: c2 :: r =>
        (if b.val = 0xE0 then 0xA0 ≤ c1.val && c1.val ≤ 0xBF
         else if b.val = 0xED then 0x80 ≤ c1.val && c1.val ≤ 0x9F
         else isCont c1) && isCont c2 && utf8Valid r
      | _ => false
    else if 0xF0 ≤ b.val && b.val ≤ 0xF4 then
      match rest with
      | c1 :: c2 :: c3 :: r =>
        (if b.val = 0xF0 then 0x90 ≤ c1.val && c1.val ≤ 0xBF
         else if b.val = 0xF4 then 0x80 ≤ c1.val && c1.val ≤ 0x8F
         else isCont c1) && isCont c2 && isCont c3 && utf8Valid r
      | _ => false
    else false

/-- UnixAddr (unix_addr.rs): family tag, 108-byte path buffer, explicit path length.
The family is kept as its u16 discriminant value. -/
structure UnixAddr where
  sun_family : Nat
  sun_path : List Byte
  path_len : Nat
  deriving DecidableEq, Repr

/-- UnixAddr::new (unix_addr.rs): reject paths longer than 108 bytes, else store the
path zero-padded into the 108-byte buffer and record its length. -/
def UnixAddr.new (path : List Byte) : Except Errno UnixAddr :=
  if path.length > MAX_PATH_LEN then .error .ENAMETOOLONG
  else .ok ⟨PF_LOCAL, path ++ List.replicate (MAX_PATH_LEN - path.length) 0, path.length⟩

/-- UnixAddr::path (unix_addr.rs): the first path_len bytes of the buffer. -/
def UnixAddr.path (a : UnixAddr) : List Byte := a.sun_path.take a.path_len

/-- UnixAddr::len (unix_addr.rs): path_len plus the 2-byte family tag. -/
def UnixAddr.len (a : UnixAddr) : Nat := a.path_len + 2

/-- The PartialEq impl for UnixAddr (unix_addr.rs): family tags equal and the two
path buffers pointwise equal under zip; path_len is not consulted. -/
def UnixAddr.eq (a b : UnixAddr) : Bool :=
  a.sun_family == b.sun_family &&
    ((a.sun_path.zip b.sun_path).all fun q => q.1 == q.2)

/-- IPv4SockAddr (address.rs), kept as its 16-byte raw representation; only its
length matters to the claims under verification. -/
structure IPv4SockAddr where
  bytes : List Byte
  deriving DecidableEq, Repr

/-- IPv6SockAddr (address.rs), kept as its 28-byte raw representation. -/
structure IPv6SockAddr where
  bytes : List Byte
  deriving DecidableEq, Repr

/-- SockAddr (address.rs): tagged address values. -/
inductive SockAddr where
  | UnixSocket (a : UnixAddr)
  | IPv4 (a : IPv4SockAddr)
  | IPv6 (a : IPv6SockAddr)
  deriving DecidableEq, Repr

/-- Reading the 16-bit sa_family field from the head of a raw buffer
(x86 little-endian, as the enclave runs on). -/
def readU16LE : List Byte → Nat
  | b0 :: b1 :: _ => b0.val + 256 * b1.val
  | [b0] => b0.val
  | [] => 0

/-- SockAddr::try_from_raw (address.rs) over the raw buffer it is given; the list is
the addr_len bytes at the pointer.  Rejects length at most 2; reads the family and
applies ProtocolFamily::try_from (EINVAL above PF_MAX); PF_UNSPEC yields no address;
PF_LOCAL takes the remaining bytes as the path, requiring valid UTF-8; PF_INET and
PF_INET6 copy the fixed-size structs with the length checks of the source (the IPv6
scope id is zeroed when not fully provided); every other family is EINVAL. -/
def SockAddr.try_from_raw (bytes : List Byte) : Except Errno (Option SockAddr) :=
  if bytes.length ≤ 2 then .error .EINVAL
  else
    let f := readU16LE bytes
    if PF_MAX < f then .error .EINVAL
    else if f = 0 then .ok none
    else if f = 1 then
      let pb := bytes.drop 2
      if utf8Valid pb then
        match UnixAddr.new pb with
        | .ok u => .ok (some (.UnixSocket u))
        | .error e => .error e
      else .error .EINVAL
    else if f = 2 then
      if bytes.length < 16 then .error .EINVAL
      else .ok (some (.IPv4 ⟨bytes.take 16⟩))
    else if f = 10 then
      if bytes.length < 24 then .error .EINVAL
      else if 28 ≤ bytes.length then .ok (some (.IPv6 ⟨bytes.take 28⟩))
      else .ok (some (.IPv6 ⟨bytes.take 24 ++ [0, 0, 0, 0]⟩))
    else .error .EINVAL

/-- A u16 laid out as two little-endian bytes (the in-memory form of the family tag
and of path_len in the repr(C) UnixAddr). -/
def u16le (n : Nat) : List Byte := [Fin.ofNat n, Fin.ofNat (n / 256)]

/-- The repr(C) in-memory bytes of a UnixAddr (unix_addr.rs): 2-byte family,
108-byte path buffer, 2-byte path_len. -/
def UnixAddr.rawBytes (a : UnixAddr) : List Byte :=
  u16le a.sun_family ++ a.sun_path ++ u16le a.path_len

/-- SockAddr::as_ptr_and_len (address.rs): the raw bytes of the address and the
length reported for it (UnixAddr::len for unix, struct sizes for IPv4/IPv6). -/
def SockAddr.as_bytes_and_len : SockAddr → (List Byte × Nat)
  | .UnixSocket a => (a.rawBytes, a.len)
  | .IPv4 a => (a.bytes, 16)
  | .IPv6 a => (a.bytes, 28)

/-- SockAddr::copy_to_slice (address.rs): copy min(addr_len, dst.len()) raw bytes
into the destination and return the full addr_len.  The result is the bytes written
and the returned length. -/
def SockAddr.copy_to_slice (a : SockAddr) (dstLen : Nat) : List Byte × Nat :=
  let p := a.as_bytes_and_len
  (p.1.take (min p.2 dstLen), p.2)

/-! ## Poll flags and EndPoint::poll -/

/-- Modelled from the spec: PollEventFlags (net/io_multiplexing, outside src/) carries
the Linux poll bits; POLLIN = 0x001. The spec fixes the encoding by quoting 0x314 for
POLLHUP|POLLOUT|POLLWRBAND|POLLWRNORM. -/
def POLLIN : Nat := 0x001

/-- Modelled from the spec: Linux POLLOUT bit of PollEventFlags. -/
def POLLOUT : Nat := 0x004

/-- Modelled from the spec: Linux POLLHUP bit of PollEventFlags. -/
def POLLHUP : Nat := 0x010

/-- Modelled from the spec: Linux POLLRDNORM bit of PollEventFlags. -/
def POLLRDNORM : Nat := 0x040

/-- Modelled from the spec: Linux POLLWRNORM bit of PollEventFlags. -/
def POLLWRNORM : Nat := 0x100

/-- Modelled from the spec: Linux POLLWRBAND bit of PollEventFlags. -/
def POLLWRBAND : Nat := 0x200

/-- Modelled from the spec: Linux POLLRDHUP bit of PollEventFlags. -/
def POLLRDHUP : Nat := 0x2000

/-- EndPoint::poll (stream.rs): the poll flags computed from the four observations the
source makes on the channel halves: reader.can_read(), reader.is_peer_closed(),
writer.can_write(), writer.is_peer_closed(). -/
def EndPoint.pollFlags (can_read r_peer_closed can_write w_peer_closed : Bool) : Nat :=
  let readable := can_read && !r_peer_closed
  let writable := can_write && !w_peer_closed
  if readable != writable then
    if can_read then POLLRDHUP ||| POLLIN ||| POLLRDNORM
    else POLLRDHUP
  else if readable then POLLIN ||| POLLOUT ||| POLLRDNORM ||| POLLWRNORM
  else POLLHUP

/-! ## The in-enclave stream engine (stream.rs)

The stateful structures are embedded with explicit state passing.  Arc<EndPoint>
values are represented by indices into an endpoint heap held in the state; the
Weak peer link is an index plus an aliveness flag on the target.  The registry
UNIX_SOCKET_SERVERS is a list of servers with unique paths. -/

/-- DEFAULT_BUF_SIZE (stream.rs): capacity of each ring buffer direction. -/
def DEFAULT_BUF_SIZE : Nat := 208 * 1024

/-- EndPoint (stream.rs): optional local name, the weak peer link (index of the peer
endpoint), whether the endpoint is still alive (Weak::upgrade succeeds), and the
bytes this endpoint has written that its peer has not yet read (the contents of the
ring buffer this endpoint writes into; the ring-buffer internals live outside src/). -/
structure EndPoint where
  name : Option (List Byte)
  peer : Nat
  alive : Bool
  sendBuf : List Byte
  deriving DecidableEq, Repr

/-- StreamUnixSocket (stream.rs): optional bound path, optional connected channel
(an endpoint index standing for Arc<EndPoint>), optional reference to a
UnixSocketServer — kept as the server's registry key, which is all that the Drop
impl consults — and the blocking flag. -/
structure StreamUnixSocket where
  path : Option (List Byte)
  channel : Option Nat
  server : Option (List Byte)
  is_blocking : Bool
  deriving DecidableEq, Repr

/-- UnixSocketServer (stream.rs): the bound path and the FIFO of pending
connections (front of the list popped first). -/
structure UnixSocketServer where
  path : List Byte
  pending_connections : List StreamUnixSocket
  deriving DecidableEq, Repr

/-- The process-wide state: UNIX_SOCKET_SERVERS (stream.rs) and the heap of
endpoints standing for the live Arc<EndPoint> allocations. -/
structure NetState where
  servers : List UnixSocketServer
  endpoints : List EndPoint
  deriving DecidableEq, Repr

/-- UnixSocketServer::get_server (stream.rs): look the path up in the registry. -/
def get_server (st : NetState) (p : List Byte) : Option UnixSocketServer :=
  st.servers.find? fun s => s.path == p

/-- UnixSocketServer::create_server (stream.rs): EADDRINUSE if the path is present,
else insert a server with an empty pending queue. -/
def create_server (st : NetState) (p : List Byte) : Except Errno (UnixSocketServer × NetState) :=
  if st.servers.any (fun s => s.path == p) then .error .EADDRINUSE
  else .ok (⟨p, []⟩, ⟨st.servers ++ [⟨p, []⟩], st.endpoints⟩)

/-- UnixSocketServer::remove_server (stream.rs): erase the path from the registry. -/
def remove_server (st : NetState) (p : List Byte) : NetState :=
  ⟨st.servers.filter (fun s => !(s.path == p)), st.endpoints⟩

/-- UnixSocketServer::push_pending (stream.rs): append a socket to the pending FIFO
of the server registered at path p. -/
def push_pending (st : NetState) (p : List Byte) (sock : StreamUnixSocket) : NetState :=
  ⟨st.servers.map (fun s => if s.path == p then ⟨s.path, s.pending_connections ++ [sock]⟩ else s),
   st.endpoints⟩

/-- EndPoint::set_name (stream.rs) on the endpoint at index cid. -/
def setEndPointName (st : NetState) (cid : Nat) (p : List Byte) : NetState :=
  match st.endpoints.get? cid with
  | some e => ⟨st.servers, st.endpoints.set cid ⟨some p, e.peer, e.alive, e.sendBuf⟩⟩
  | none => st

/-- Replacing the unread bytes written by the endpoint at index cid. -/
def setEndPointBuf (st : NetState) (cid : Nat) (buf : List Byte) : NetState :=
  match st.endpoints.get? cid with
  | some e => ⟨st.servers, st.endpoints.set cid ⟨e.name, e.peer, e.alive, buf⟩⟩
  | none => st

/-- EndPoint::peer_name (stream.rs): upgrade the weak peer link — which fails once
the peer is released — then read the peer's name. -/
def peer_name (st : NetState) (cid : Nat) : Option (List Byte) :=
  match st.endpoints.get? cid with
  | none => none
  | some e =>
    match st.endpoints.get? e.peer with
    | none => none
    | some pe => if pe.alive then pe.name else none

/-- StreamUnixSocket::bind (stream.rs): EINVAL if already bound or if the address is
not the UnixSocket variant; store the path; if a channel is owned, propagate the
name onto that endpoint. -/
def StreamUnixSocket.bind (s : StreamUnixSocket) (addr : SockAddr) (st : NetState) :
    Except Errno (StreamUnixSocket × NetState) :=
  if s.path.isSome then .error .EINVAL
  else
    match addr with
    | .UnixSocket u =>
      let p := u.path
      let st' := match s.channel with
        | some cid => setEndPointName st cid p
        | none => st
      .ok (⟨some p, s.channel, s.server, s.is_blocking⟩, st')
    | _ => .error .EINVAL

/-- StreamUnixSocket::listen (stream.rs): EINVAL when unbound; create a server for
the path on first listen (may fail EADDRINUSE); idempotent afterwards; the backlog
argument is ignored by the source. -/
def StreamUnixSocket.listen (s : StreamUnixSocket) (st : NetState) :
    Except Errno (StreamUnixSocket × NetState) :=
  match s.path with
  | none => .error .EINVAL
  | some p =>
    if s.server.isSome then .ok (s, st)
    else
      match create_server st p with
      | .error e => .error e
      | .ok (srv, st') => .ok (⟨s.path, s.channel, some srv.path, s.is_blocking⟩, st')

/-- EndPoint::new_duplex_channel followed by the body of StreamUnixSocket::connect
(stream.rs): a null address dissolves the channel; otherwise the server at the
target path must exist (ECONNREFUSED), a fresh endpoint pair is allocated and
cross-wired, the end kept by the caller is the second one, the first is named
after the target path and wrapped in a new socket carrying the target path AND the
server reference, which is pushed onto the server's pending FIFO. -/
def StreamUnixSocket.connect (s : StreamUnixSocket) (addr : Option SockAddr) (st : NetState) :
    Except Errno (StreamUnixSocket × NetState) :=
  match addr with
  | none => .ok (⟨s.path, none, s.server, s.is_blocking⟩, st)
  | some a =>
    match a with
    | .UnixSocket u =>
      let p := u.path
      match get_server st p with
      | none => .error .ECONNREFUSED
      | some _ =>
        let na := st.endpoints.length
        let nb := na + 1
        let st1 : NetState := ⟨st.servers, st.endpoints ++ [⟨some p, nb, true, []⟩, ⟨none, na, true, []⟩]⟩
        let server_socket : StreamUnixSocket := ⟨some p, some na, some p, true⟩
        .ok (⟨s.path, some nb, s.server, s.is_blocking⟩, push_pending st1 p server_socket)
    | _ => .error .EAFNOSUPPORT

/-- StreamUnixSocket::accept (stream.rs): require a bound path and a registered
server, else EINVAL; pop the pending FIFO, else EAGAIN — never blocking; switch the
accepted socket to non-blocking when SOCK_NONBLOCK was passed; when a caller buffer
of length dstLen is supplied, the written address is the peer name of the
LISTENER's own channel (self.channel), serialized via copy_to_slice.  Returns the
accepted socket and the address length. -/
def StreamUnixSocket.accept (s : StreamUnixSocket) (nonblock : Bool) (addrDst : Option Nat)
    (st : NetState) : Except Errno ((StreamUnixSocket × Nat) × NetState) :=
  match s.path with
  | none => .error .EINVAL
  | some p =>
    match get_server st p with
    | none => .error .EINVAL
    | some srv =>
      match srv.pending_connections with
      | [] => .error .EAGAIN
      | sock :: rest =>
        let st1 : NetState :=
          ⟨st.servers.map (fun t => if t.path == srv.path then ⟨t.path, rest⟩ else t), st.endpoints⟩
        let sock1 := if nonblock then ⟨sock.path, sock.channel, sock.server, false⟩ else sock
        match addrDst with
        | none => .ok ((sock1, 0), st1)
        | some dstLen =>
          match s.channel with
          | none => .ok ((sock1, 0), st1)
          | some cid =>
            match peer_name st1 cid with
            | none => .ok ((sock1, 0), st1)
            | some nm =>
              match UnixAddr.new nm with
              | .error e => .error e
              | .ok u => .ok ((sock1, (SockAddr.copy_to_slice (.UnixSocket u) dstLen).2), st1)

/-- Drop for StreamUnixSocket (stream.rs): when the server field is set, remove the
server's path from the registry.  (The simultaneous Arc release of the channel is
implicit ownership semantics, not part of the Drop body.) -/
def StreamUnixSocket.drop (s : StreamUnixSocket) (st : NetState) : NetState :=
  match s.server with
  | some p => remove_server st p
  | none => st

/-- Modelled from the spec: write into a ring buffer (util/ring_buf is outside
src/).  Stores up to the available space of the DEFAULT_BUF_SIZE-bounded pipe and
reports the count; with no progress possible it returns EAGAIN in non-blocking
mode (a blocking writer would suspend instead; suspension has no value in this
total model and no claim exercises a full buffer). -/
def ringWrite (used len : Nat) : Except Errno Nat :=
  if len = 0 then .ok 0
  else if used < DEFAULT_BUF_SIZE then .ok (min len (DEFAULT_BUF_SIZE - used))
  else .error .EAGAIN

/-- StreamUnixSocket::write (stream.rs): ENOTCONN without a channel, else delegate
to the ring-buffer writer of the owned endpoint. -/
def StreamUnixSocket.write (s : StreamUnixSocket) (st : NetState) (buf : List Byte) :
    Except Errno Nat × NetState :=
  match s.channel with
  | none => (.error .ENOTCONN, st)
  | some cid =>
    match st.endpoints.get? cid with
    | none => (.error .ENOTCONN, st)
    | some e =>
      match ringWrite e.sendBuf.length buf.length with
      | .error er => (.error er, st)
      | .ok n => (.ok n, setEndPointBuf st cid (e.sendBuf ++ buf.take n))

/-- StreamUnixSocket::sendto (stream.rs): the address and flags are ignored; it is
write. -/
def StreamUnixSocket.sendto (s : StreamUnixSocket) (st : NetState) (buf : List Byte)
    (addr : Option SockAddr) : Except Errno Nat × NetState :=
  s.write st buf

/-- Modelled from the spec: read from a ring buffer (util/ring_buf is outside
src/).  Takes from the front of the pipe; on an empty pipe it returns 0 when the
peer half is closed and EAGAIN otherwise (a blocking reader would suspend until
progress or peer close). -/
def ringRead (data : List Byte) (bufLen : Nat) (peerClosed : Bool) :
    Except Errno (List Byte) :=
  if bufLen = 0 then .ok []
  else if data.isEmpty then
    if peerClosed then .ok [] else .error .EAGAIN
  else .ok (data.take bufLen)

/-- StreamUnixSocket::read (stream.rs): ENOTCONN without a channel, else read from
the owned endpoint's reader — the bytes the peer endpoint has written.  Returns
the bytes read and the updated state. -/
def StreamUnixSocket.read (s : StreamUnixSocket) (st : NetState) (bufLen : Nat) :
    Except Errno (List Byte) × NetState :=
  match s.channel with
  | none => (.error .ENOTCONN, st)
  | some cid =>
    match st.endpoints.get? cid with
    | none => (.error .ENOTCONN, st)
    | some e =>
      match st.endpoints.get? e.peer with
      | none => (.error .ENOTCONN, st)
      | some pe =>
        match ringRead pe.sendBuf bufLen (!pe.alive) with
        | .error er => (.error er, st)
        | .ok got => (.ok got, setEndPointBuf st e.peer (pe.sendBuf.drop got.length))

/-- StreamUnixSocket::recvfrom (stream.rs): read, then when a caller buffer was
supplied write the peer name of the current channel via UnixAddr::new and
copy_to_slice, reporting its length (0 when the peer has no name). -/
def StreamUnixSocket.recvfrom (s : StreamUnixSocket) (st : NetState) (bufLen : Nat)
    (addrDst : Option Nat) : Except Errno (List Byte × Nat) × NetState :=
  match s.read st bufLen with
  | (.error e, st') => (.error e, st')
  | (.ok data, st') =>
    match addrDst with
    | none => (.ok (data, 0), st')
    | some dstLen =>
      match s.channel with
      | none => (.ok (data, 0), st')
      | some cid =>
        match peer_name st' cid with
        | none => (.ok (data, 0), st')
        | some nm =>
          match UnixAddr.new nm with
          | .error e => (.error e, st')
          | .ok u => (.ok (data, (SockAddr.copy_to_slice (.UnixSocket u) dstLen).2), st')

/-! ## The router (unix_socket.rs) -/

/-- The source tag of the router (enum Path in unix_socket.rs). -/
inductive Path where
  | Unknown
  | Host
  | Libos
  deriving DecidableEq, Repr

/-- SocketType (socket_file/socket_type.rs). -/
inductive SocketType where
  | SOCK_STREAM
  | SOCK_DGRAM
  | SOCK_RAW
  | SOCK_RDM
  | SOCK_SEQPACKET
  | SOCK_DCCP
  | SOCK_PACKET
  deriving DecidableEq, Repr

/-- The derived PartialEq of SockAddr (address.rs), which on the UnixSocket variant
is the custom UnixAddr equality. -/
def SockAddr.eqSock (a b : SockAddr) : Bool :=
  match a, b with
  | .UnixSocket x, .UnixSocket y => UnixAddr.eq x y
  | .IPv4 x, .IPv4 y => x == y
  | .IPv6 x, .IPv6 y => x == y
  | _, _ => false

/-- SockAddr::is_from_host (address.rs): some entry of HOST_UNIX_ADDRS — passed here
explicitly as the configured host address list — equals the address. -/
def SockAddr.is_from_host (a : SockAddr) (hostAddrs : List SockAddr) : Bool :=
  hostAddrs.any fun h => SockAddr.eqSock h a

/-- UnixSocket (unix_socket.rs): optional libos stream socket, optional host socket
— the host SocketFile is a wrapper over an OCall-backed file descriptor whose
behaviour lives outside the enclave, so only its presence is represented — the
source tag, and the socket type. -/
structure UnixSocket where
  libos_sock : Option StreamUnixSocket
  host_sock : Option Unit
  source : Path
  socket_type : SocketType
  deriving DecidableEq, Repr

/-- The outcome of a router verb in this total embedding: a value, an errno, or
crash — the branch where the source unwraps an Option that is None and panics. -/
inductive RouterResult (α : Type) where
  | ok (a : α)
  | err (e : Errno)
  | crash
  deriving DecidableEq, Repr

/-- UnixSocket::new (unix_socket.rs): reject protocols other than 0 and PF_LOCAL;
create a libos stream socket only for SOCK_STREAM; create a host socket iff the
configured host path list is non-empty (the socket OCall is modelled as
succeeding); EPROTONOSUPPORT when neither exists; the source tag starts Unknown. -/
def UnixSocket.new (socket_type : SocketType) (nonblockFlag : Bool) (protocol : Int)
    (hostAddrs : List SockAddr) : Except Errno UnixSocket :=
  if protocol ≠ 0 ∧ protocol ≠ 1 then .error .EPROTONOSUPPORT
  else
    let libos : Option StreamUnixSocket :=
      if socket_type = .SOCK_STREAM then some ⟨none, none, none, !nonblockFlag⟩ else none
    let host : Option Unit := if hostAddrs.isEmpty then none else some ()
    if libos.isNone && host.isNone then .error .EPROTONOSUPPORT
    else .ok ⟨libos, host, .Unknown, socket_type⟩

/-- UnixSocket::bind (unix_socket.rs): route by is_from_host alone — a host address
goes to the host socket (OCall modelled as succeeding) pinning the tag to Host, any
other address goes to the libos socket pinning the tag to Libos.  Both arms unwrap
the respective Option, so a missing underlying socket is a crash. -/
def UnixSocket.bind (r : UnixSocket) (addr : SockAddr) (hostAddrs : List SockAddr)
    (st : NetState) : RouterResult (UnixSocket × NetState) :=
  if addr.is_from_host hostAddrs then
    match r.host_sock with
    | none => .crash
    | some _ => .ok (⟨r.libos_sock, r.host_sock, .Host, r.socket_type⟩, st)
  else
    match r.libos_sock with
    | none => .crash
    | some s =>
      match s.bind addr st with
      | .error e => .err e
      | .ok (s', st') => .ok (⟨some s', r.host_sock, .Libos, r.socket_type⟩, st')

/-- The shape a host sendto/recvfrom OCall result takes once surfaced by the
router: the host either returns a value or an errno. -/
def hostOutcome {α : Type} (st : NetState) (res : Except Errno α) : RouterResult (α × NetState) :=
  match res with
  | .ok v => .ok (v, st)
  | .error e => .err e

/-- UnixSocket::sendto (unix_socket.rs).  With no address: try the libos socket; on
Some(Ok) return it; otherwise, when the host list is empty, surface the libos
outcome (unwrapping a missing libos socket is a crash), else fall back to the host
socket, whose OCall outcome is the hostRes parameter.  With an address: route by
is_from_host only.  The source tag is never consulted. -/
def UnixSocket.sendto (r : UnixSocket) (st : NetState) (buf : List Byte)
    (addr : Option SockAddr) (hostAddrs : List SockAddr) (hostRes : Except Errno Nat) :
    RouterResult (Nat × NetState) :=
  match addr with
  | none =>
    match r.libos_sock with
    | some s =>
      match s.sendto st buf addr with
      | (.ok n, st') => .ok (n, st')
      | (.error e, _) =>
        if hostAddrs.isEmpty then .err e
        else
          match r.host_sock with
          | none => .crash
          | some _ => hostOutcome st hostRes
    | none =>
      if hostAddrs.isEmpty then .crash
      else
        match r.host_sock with
        | none => .crash
        | some _ => hostOutcome st hostRes
  | some a =>
    if a.is_from_host hostAddrs then
      match r.host_sock with
      | none => .crash
      | some _ => hostOutcome st hostRes
    else
      match r.libos_sock with
      | none => .crash
      | some s =>
        match s.sendto st buf addr with
        | (.ok n, st') => .ok (n, st')
        | (.error e, _) => .err e

/-- UnixSocket::recvfrom (unix_socket.rs): try the libos socket (against a
temporary address buffer of the caller's length, copied back on success); on
Some(Ok) return it; otherwise, when the host list is empty, surface the libos
outcome (a missing libos socket is a crash), else fall back to the host socket,
whose OCall outcome is the hostRes parameter.  The caller's address buffer never
routes, and the source tag is never consulted. -/
def UnixSocket.recvfrom (r : UnixSocket) (st : NetState) (bufLen : Nat)
    (addrDst : Option Nat) (hostAddrs : List SockAddr)
    (hostRes : Except Errno (List Byte × Nat)) : RouterResult ((List Byte × Nat) × NetState) :=
  match r.libos_sock with
  | some s =>
    match s.recvfrom st bufLen addrDst with
    | (.ok out, st') => .ok (out, st')
    | (.error e, _) =>
      if hostAddrs.isEmpty then .err e
      else
        match r.host_sock with
        | none => .crash
        | some _ => hostOutcome st hostRes
  | none =>
    if hostAddrs.isEmpty then .crash
    else
      match r.host_sock with
      | none => .crash
      | some _ => hostOutcome st hostRes

/-! ## Shared concrete scenario: bind, listen, connect, accept on path "/srv" -/

instance {ε α : Type} [DecidableEq ε] [DecidableEq α] : DecidableEq (Except ε α) := fun a b =>
  match a, b with
  | .ok x, .ok y =>
    if h : x = y then .isTrue (by rw [h]) else .isFalse (by intro hh; cases hh; exact h rfl)
  | .error x, .error y =>
    if h : x = y then .isTrue (by rw [h]) else .isFalse (by intro hh; cases hh; exact h rfl)
  | .ok _, .error _ => .isFalse (by intro hh; cases hh)
  | .error _, .ok _ => .isFalse (by intro hh; cases hh)

/-- The path "/srv" as bytes. -/
def pSrv : List Byte := [47, 115, 114, 118]

/-- The UnixAddr for "/srv" (the value UnixAddr::new("/srv") produces). -/
def uSrv : UnixAddr := ⟨1, pSrv ++ List.replicate 104 0, 4⟩

/-- The empty process state. -/
def stEmpty : NetState := ⟨[], []⟩

/-- A freshly created blocking StreamUnixSocket. -/
def sockFresh : StreamUnixSocket := ⟨none, none, none, true⟩

/-- The listener after bind("/srv"). -/
def lBound : StreamUnixSocket := ⟨some pSrv, none, none, true⟩

/-- The listener after listen. -/
def lListen : StreamUnixSocket := ⟨some pSrv, none, some pSrv, true⟩

/-- The state after the listener's listen: one registered server, no endpoints. -/
def stListen : NetState := ⟨[⟨pSrv, []⟩], []⟩

/-- The client after connect("/srv"): it owns endpoint 1. -/
def cConn : StreamUnixSocket := ⟨none, some 1, none, true⟩

/-- The socket connect pushes onto the pending FIFO: target path, endpoint 0, and —
as the source writes it — the server reference. -/
def qPend : StreamUnixSocket := ⟨some pSrv, some 0, some pSrv, true⟩

/-- The state after the client's connect: the pending FIFO holds qPend and the two
cross-wired endpoints exist. -/
def stConn : NetState :=
  ⟨[⟨pSrv, [qPend]⟩], [⟨some pSrv, 1, true, []⟩, ⟨none, 0, true, []⟩]⟩

/-- The state after the listener accepts: the FIFO is empty again. -/
def stAcc : NetState :=
  ⟨[⟨pSrv, []⟩], [⟨some pSrv, 1, true, []⟩, ⟨none, 0, true, []⟩]⟩

/-- Looking up the path that push_pending touched: the server is still found, with
the socket appended to its FIFO. -/
theorem get_server_push_pending (st : NetState) (p : List Byte) (q : StreamUnixSocket) :
    get_server (push_pending st p q) p =
      (get_server st p).map fun srv =>
        (⟨srv.path, srv.pending_connections ++ [q]⟩ : UnixSocketServer) := by
  show (st.servers.map _).find? _ = (st.servers.find? _).map _
  induction st.servers with
  | nil => rfl
  | cons s t ih =>
    by_cases hp : (s.path == p) = true
    · simp [List.find?, hp]
    · simp [List.find?, hp] at ih ⊢
      exact ih

/-! ## C1 -/

/-- C1 (counterexample): the claim "a socket in the Connected state has server None;
in particular a socket delivered through the pending queue never has its server
field set" is false on the code: running bind, listen, connect, accept on "/srv"
yields an accepted socket whose channel is Some AND whose server is Some — connect
stores the server reference in the socket it pushes onto the pending FIFO. -/
theorem c1_counterexample :
    StreamUnixSocket.bind sockFresh (.UnixSocket uSrv) stEmpty = .ok (lBound, stEmpty)
    ∧ StreamUnixSocket.listen lBound stEmpty = .ok (lListen, stListen)
    ∧ StreamUnixSocket.connect sockFresh (some (.UnixSocket uSrv)) stListen = .ok (cConn, stConn)
    ∧ StreamUnixSocket.accept lListen false none stConn = .ok ((qPend, 0), stAcc)
    ∧ qPend.channel.isSome = true
    ∧ qPend.server.isSome = true := by
  decide

/-- C1 (amended): connect leaves the caller's server field unchanged (None for a
fresh client), but the socket it creates and pushes onto the target server's
pending FIFO — the one accept later returns — carries channel Some AND server Some
(the listener's server). -/
theorem c1_connect_sets_server (s : StreamUnixSocket) (u : UnixAddr) (st : NetState)
    (s' : StreamUnixSocket) (st' : NetState)
    (h : StreamUnixSocket.connect s (some (.UnixSocket u)) st = .ok (s', st')) :
    s'.channel = some (st.endpoints.length + 1) ∧ s'.server = s.server ∧
    ∃ srv, get_server st' u.path = some srv ∧
      srv.pending_connections.getLast? =
        some ⟨some u.path, some st.endpoints.length, some u.path, true⟩ := by
  rw [StreamUnixSocket.connect] at h
  cases hg : get_server st u.path with
  | none => rw [hg] at h; cases h
  | some srv0 =>
    rw [hg] at h
    simp only [Except.ok.injEq, Prod.mk.injEq] at h
    obtain ⟨hs', hst'⟩ := h
    subst hs'
    subst hst'
    refine ⟨rfl, rfl,
      ⟨srv0.path, srv0.pending_connections ++
        [⟨some u.path, some st.endpoints.length, some u.path, true⟩]⟩, ?_, ?_⟩
    · rw [get_server_push_pending]
      show (get_server st u.path).map _ = _
      rw [hg]
      rfl
    · exact List.getLast?_concat _

/-- C1 (witness): the amended statement at the concrete "/srv" scenario. -/
theorem c1_connect_sets_server_witness :
    cConn.channel = some 1 ∧ cConn.server = sockFresh.server ∧
    ∃ srv, get_server stConn uSrv.path = some srv ∧
      srv.pending_connections.getLast? = some ⟨some uSrv.path, some 0, some uSrv.path, true⟩ :=
  c1_connect_sets_server sockFresh uSrv stListen cConn stConn (by decide)

/-! ## C2 -/

/-- After filtering out the servers at path p, a lookup finds nothing at p and is
unchanged at every other path. -/
theorem find?_filter_path (l : List UnixSocketServer) (p q : List Byte) :
    ((l.filter fun s => !(s.path == p)).find? fun s => s.path == q) =
      if q = p then none else l.find? fun s => s.path == q := by
  induction l with
  | nil => simp
  | cons s t ih =>
    rw [List.filter_cons]
    by_cases hp : s.path = p
    · have hb : (!(s.path == p)) = true ↔ False := by simp [hp]
      rw [if_neg (by simp [hp]), ih]
      by_cases hq : q = p
      · simp [hq]
      · rw [if_neg hq, if_neg hq, List.find?_cons_of_neg]
        simp only [beq_iff_eq, hp]
        exact fun hc => hq hc.symm
    · rw [if_pos (by simp [hp])]
      by_cases hsq : s.path = q
      · have hq : q ≠ p := fun hc => hp (by rw [hsq, hc])
        rw [List.find?_cons_of_pos _ (by simp [hsq]), if_neg hq,
          List.find?_cons_of_pos _ (by simp [hsq])]
      · rw [List.find?_cons_of_neg _ (by simp [hsq]), ih]
        by_cases hq : q = p
        · simp [hq]
        · rw [if_neg hq, if_neg hq, List.find?_cons_of_neg _ (by simp [hsq])]

/-- C2 (counterexample): the claim "dropping a non-listener socket leaves the
ServerRegistry unchanged, so a subsequent connect still finds the server" is false
on the code: in the "/srv" scenario the accepted socket qPend is not the listener,
yet dropping it erases the registry entry and a fresh connect to "/srv" is then
refused. -/
theorem c2_counterexample :
    qPend ≠ lListen
    ∧ get_server stAcc pSrv = some ⟨pSrv, []⟩
    ∧ StreamUnixSocket.drop qPend stAcc = ⟨[], stAcc.endpoints⟩
    ∧ get_server (StreamUnixSocket.drop qPend stAcc) pSrv = none
    ∧ StreamUnixSocket.connect sockFresh (some (.UnixSocket uSrv))
        (StreamUnixSocket.drop qPend stAcc) = .error .ECONNREFUSED := by
  decide

/-- C2 (amended): dropping a StreamUnixSocket removes the registry entry for a path
exactly when the socket's server field holds that path — which is true of the
listener, but equally of every socket created by connect and delivered through the
pending queue; only sockets whose server field is None (such as the connect-side
client) leave the registry unchanged. -/
theorem c2_drop_registry (s : StreamUnixSocket) (st : NetState) (q : List Byte) :
    get_server (StreamUnixSocket.drop s st) q =
      match s.server with
      | some p => if q = p then none else get_server st q
      | none => get_server st q := by
  cases hs : s.server with
  | none => simp [StreamUnixSocket.drop, hs]
  | some p =>
    simp only [StreamUnixSocket.drop, hs]
    show ((st.servers.filter fun t => !(t.path == p)).find? fun t => t.path == q) = _
    rw [find?_filter_path]
    rfl

/-! ## C4 -/

/-- C4 (counterexample): under the claim's own premise — after the peer endpoint is
dropped, both halves report is_peer_closed — EndPoint::poll returns POLLHUP even
while unread bytes remain (can_read = true), and POLLHUP contains neither POLLIN
nor POLLRDHUP, contradicting the claimed POLLRDHUP|POLLIN phase. -/
theorem c4_counterexample :
    EndPoint.pollFlags true true true true = POLLHUP
    ∧ POLLHUP &&& POLLIN = 0
    ∧ POLLHUP &&& POLLRDHUP = 0 := by
  decide

/-- C4 (amended): once both halves of an endpoint report peer-closed — the state the
ring-buffer contract prescribes after the peer endpoint is dropped — poll returns
exactly POLLHUP, whatever the reader and writer can still do; so A.poll() is
POLLHUP immediately after B is dropped, before and after draining the unread
bytes.  The POLLRDHUP|POLLIN result only ever arises when exactly one direction is
usable. -/
theorem c4_poll_peer_closed (can_read can_write : Bool) :
    EndPoint.pollFlags can_read true can_write true = POLLHUP := by
  cases can_read <;> cases can_write <;> decide

/-! ## C3 -/

/-- A configured host address, "h". -/
def hostA : SockAddr := .UnixSocket ⟨1, [104] ++ List.replicate 107 0, 1⟩

/-- A router whose source tag is pinned to Libos, holding an unconnected libos
stream socket and a host socket. -/
def rLibos : UnixSocket := ⟨some sockFresh, some (), .Libos, .SOCK_STREAM⟩

/-- C3 (counterexample): the claim "when the source tag is Libos, sendto/recvfrom
with no address are served by the libos socket only and its error is returned" is
false on the code: with a non-empty host path list, the libos socket's ENOTCONN is
swallowed and the call falls through to the host socket, whose outcome — success
or a different errno — is what the caller sees. -/
theorem c3_counterexample :
    rLibos.source = .Libos
    ∧ (StreamUnixSocket.sendto sockFresh stEmpty [] none).1 = .error .ENOTCONN
    ∧ UnixSocket.sendto rLibos stEmpty [] none [hostA] (.ok 7) = .ok (7, stEmpty)
    ∧ UnixSocket.sendto rLibos stEmpty [] none [hostA] (.error .EINVAL) = .err .EINVAL
    ∧ UnixSocket.recvfrom rLibos stEmpty 1 none [hostA] (.ok ([104], 0))
        = .ok (([104], 0), stEmpty) := by
  decide

/-- C3 (amended): sendto and recvfrom with no address never consult the source tag:
they try the libos socket first and return its result when it succeeds; when it
fails they surface its error only if the configured host path list is empty, and
otherwise fall back to the host socket, whatever the tag says. -/
theorem c3_sendto_recvfrom_ignores_source (s : StreamUnixSocket) (hostTag : Option Unit)
    (ty : SocketType) (src1 src2 : Path) (st : NetState) (buf : List Byte) (bufLen : Nat)
    (addrDst : Option Nat) (hostAddrs : List SockAddr) (hostRes : Except Errno Nat)
    (hostRes2 : Except Errno (List Byte × Nat)) :
    (UnixSocket.sendto ⟨some s, hostTag, src1, ty⟩ st buf none hostAddrs hostRes
      = UnixSocket.sendto ⟨some s, hostTag, src2, ty⟩ st buf none hostAddrs hostRes)
    ∧ (UnixSocket.recvfrom ⟨some s, hostTag, src1, ty⟩ st bufLen addrDst hostAddrs hostRes2
      = UnixSocket.recvfrom ⟨some s, hostTag, src2, ty⟩ st bufLen addrDst hostAddrs hostRes2)
    ∧ (∀ n st', s.sendto st buf none = (.ok n, st') →
        UnixSocket.sendto ⟨some s, hostTag, src1, ty⟩ st buf none hostAddrs hostRes
          = .ok (n, st'))
    ∧ (∀ e st', s.sendto st buf none = (.error e, st') → hostAddrs = [] →
        UnixSocket.sendto ⟨some s, hostTag, src1, ty⟩ st buf none hostAddrs hostRes = .err e)
    ∧ (∀ e st', s.sendto st buf none = (.error e, st') → hostAddrs ≠ [] → hostTag = some () →
        UnixSocket.sendto ⟨some s, hostTag, src1, ty⟩ st buf none hostAddrs hostRes
          = hostOutcome st hostRes)
    ∧ (∀ out st', s.recvfrom st bufLen addrDst = (.ok out, st') →
        UnixSocket.recvfrom ⟨some s, hostTag, src1, ty⟩ st bufLen addrDst hostAddrs hostRes2
          = .ok (out, st'))
    ∧ (∀ e st', s.recvfrom st bufLen addrDst = (.error e, st') → hostAddrs = [] →
        UnixSocket.recvfrom ⟨some s, hostTag, src1, ty⟩ st bufLen addrDst hostAddrs hostRes2
          = .err e)
    ∧ (∀ e st', s.recvfrom st bufLen addrDst = (.error e, st') → hostAddrs ≠ [] →
        hostTag = some () →
        UnixSocket.recvfrom ⟨some s, hostTag, src1, ty⟩ st bufLen addrDst hostAddrs hostRes2
          = hostOutcome st hostRes2) := by
  refine ⟨rfl, rfl, ?_, ?_, ?_, ?_, ?_, ?_⟩
  · intro n st' h
    simp [UnixSocket.sendto, h]
  · intro e st' h hempty
    simp [UnixSocket.sendto, h, hempty]
  · intro e st' h hne htag
    subst htag
    have hie : hostAddrs.isEmpty = false := by
      cases hostAddrs with
      | nil => exact absurd rfl hne
      | cons a t => rfl
    simp [UnixSocket.sendto, h, hie]
  · intro out st' h
    simp [UnixSocket.recvfrom, h]
  · intro e st' h hempty
    simp [UnixSocket.recvfrom, h, hempty]
  · intro e st' h hne htag
    subst htag
    have hie : hostAddrs.isEmpty = false := by
      cases hostAddrs with
      | nil => exact absurd rfl hne
      | cons a t => rfl
    simp [UnixSocket.recvfrom, h, hie]

/-- C3 (witness): the amended fallback conjunct at the concrete counterexample
inputs: libos returns ENOTCONN, the host list is non-empty, so the outcome is the
host's. -/
theorem c3_ignores_source_witness :
    UnixSocket.sendto rLibos stEmpty [] none [hostA] (.ok 7) = hostOutcome stEmpty (.ok 7) :=
  (c3_sendto_recvfrom_ignores_source sockFresh (some ()) .SOCK_STREAM .Libos .Libos stEmpty []
    0 none [hostA] (.ok 7) (.ok ([], 0))).2.2.2.2.1 .ENOTCONN stEmpty (by decide)
    (by decide) rfl

/-! ## C5 -/

/-- C5: from a listener bound and listening at path u (arbitrary), a fresh client's
connect fills the queue and accept returns a socket whose bound path equals the
listener's; that socket's channel is wired so that peer_name reads exactly the
name on the connecting client's endpoint — none until the connecting side sets a
name, and the client's own bind(v) makes peer_name return v's path. -/
theorem c5_accept_path_and_peer_name (u v : UnixAddr) :
    let p := u.path
    let l : StreamUnixSocket := ⟨some p, none, some p, true⟩
    let stL : NetState := ⟨[⟨p, []⟩], []⟩
    let c : StreamUnixSocket := ⟨none, none, none, true⟩
    let c1 : StreamUnixSocket := ⟨none, some 1, none, true⟩
    let q : StreamUnixSocket := ⟨some p, some 0, some p, true⟩
    let st1 : NetState := ⟨[⟨p, [q]⟩], [⟨some p, 1, true, []⟩, ⟨none, 0, true, []⟩]⟩
    let st2 : NetState := ⟨[⟨p, []⟩], [⟨some p, 1, true, []⟩, ⟨none, 0, true, []⟩]⟩
    let st3 : NetState := ⟨[⟨p, []⟩], [⟨some p, 1, true, []⟩, ⟨some v.path, 0, true, []⟩]⟩
    StreamUnixSocket.connect c (some (.UnixSocket u)) stL = .ok (c1, st1)
    ∧ StreamUnixSocket.accept l false none st1 = .ok ((q, 0), st2)
    ∧ q.path = l.path
    ∧ peer_name st2 0 = none
    ∧ StreamUnixSocket.bind c1 (.UnixSocket v) st2 = .ok (⟨some v.path, some 1, none, true⟩, st3)
    ∧ peer_name st3 0 = some v.path := by
  refine ⟨?_, ?_, rfl, ?_, ?_, ?_⟩
  · simp [StreamUnixSocket.connect, get_server, push_pending, List.find?_cons]
  · simp [StreamUnixSocket.accept, get_server, List.find?_cons]
  · rfl
  · simp [StreamUnixSocket.bind, setEndPointName]
  · rfl

/-! ## C8 -/

/-- C8: accept never blocks — whenever the pending FIFO of the server registered at
the socket's bound path is empty, accept returns EAGAIN, whatever the socket's
blocking mode, flags and address buffer. -/
theorem c8_accept_empty_eagain (s : StreamUnixSocket) (p : List Byte) (st : NetState)
    (srv : UnixSocketServer) (nonblock : Bool) (addrDst : Option Nat)
    (hpath : s.path = some p) (hsrv : get_server st p = some srv)
    (hpend : srv.pending_connections = []) :
    StreamUnixSocket.accept s nonblock addrDst st = .error .EAGAIN := by
  rw [StreamUnixSocket.accept, hpath]
  simp only [hsrv, hpend]

/-- C8 (witness): a blocking listener with an empty queue gets EAGAIN from accept. -/
theorem c8_accept_empty_eagain_witness :
    lListen.is_blocking = true
    ∧ StreamUnixSocket.accept lListen false none stListen = .error .EAGAIN :=
  ⟨rfl, c8_accept_empty_eagain lListen pSrv stListen ⟨pSrv, []⟩ false none rfl (by decide) rfl⟩

/-! ## C7 -/

/-- C7: the malformed-input classification of try_from_raw — buffers of length at
most 2 are EINVAL; family PF_UNSPEC is no address, not an error; family PF_LOCAL
takes the len − 2 path bytes and is EINVAL exactly when they are not valid UTF-8,
ENAMETOOLONG when they are valid but longer than 108 bytes; any family other than
PF_UNSPEC, PF_LOCAL, PF_INET, PF_INET6 up to and including PF_MAX = 45 is EINVAL,
and any family above PF_MAX is EINVAL. -/
theorem c7_try_from_raw_classification (bytes : List Byte) :
    (bytes.length ≤ 2 → SockAddr.try_from_raw bytes = .error .EINVAL)
    ∧ (2 < bytes.length → readU16LE bytes = 0 → SockAddr.try_from_raw bytes = .ok none)
    ∧ (2 < bytes.length → readU16LE bytes = 1 →
        ((SockAddr.try_from_raw bytes = .error .EINVAL) ↔ utf8Valid (bytes.drop 2) = false)
        ∧ (utf8Valid (bytes.drop 2) = true → 108 < (bytes.drop 2).length →
            SockAddr.try_from_raw bytes = .error .ENAMETOOLONG))
    ∧ (2 < bytes.length → readU16LE bytes ≠ 0 → readU16LE bytes ≠ 1 →
        readU16LE bytes ≠ 2 → readU16LE bytes ≠ 10 → readU16LE bytes ≤ 45 →
        SockAddr.try_from_raw bytes = .error .EINVAL)
    ∧ (2 < bytes.length → 45 < readU16LE bytes →
        SockAddr.try_from_raw bytes = .error .EINVAL) := by
  refine ⟨?_, ?_, ?_, ?_, ?_⟩
  · intro h
    simp [SockAddr.try_from_raw, h]
  · intro hl hf
    have hlen : ¬(bytes.length ≤ 2) := by omega
    simp [SockAddr.try_from_raw, hf, hlen, PF_MAX]
  · intro hl hf
    have hlen : ¬(bytes.length ≤ 2) := by omega
    have hdl : (bytes.drop 2).length = bytes.length - 2 := List.length_drop 2 bytes
    constructor
    · cases hv : utf8Valid (bytes.drop 2) with
      | false => simp [SockAddr.try_from_raw, hf, hlen, hv, PF_MAX]
      | true =>
        simp only [SockAddr.try_from_raw, hf, if_neg hlen, PF_MAX]
        norm_num
        simp only [hv, if_pos, UnixAddr.new, MAX_PATH_LEN]
        by_cases h108 : 108 < bytes.length - 2
        · simp [h108]
        · simp [h108]
    · intro hv h108
      rw [hdl] at h108
      simp only [SockAddr.try_from_raw, hf, if_neg hlen, PF_MAX]
      norm_num
      simp only [hv, if_pos, UnixAddr.new, MAX_PATH_LEN]
      simp [h108]
  · intro hl hf0 hf1 hf2 hf10 h45
    have hlen : ¬(bytes.length ≤ 2) := by omega
    have h45' : ¬(45 < readU16LE bytes) := by omega
    simp [SockAddr.try_from_raw, hlen, hf0, hf1, hf2, hf10, h45', PF_MAX]
  · intro hl h45
    have hlen : ¬(bytes.length ≤ 2) := by omega
    simp [SockAddr.try_from_raw, hlen, h45, PF_MAX]

/-- C7 (witness): the classification at a 2-byte buffer and at family 0x2A — the
spec's own test vectors. -/
theorem c7_try_from_raw_classification_witness :
    SockAddr.try_from_raw [1, 0] = .error .EINVAL
    ∧ SockAddr.try_from_raw [42, 0, 1] = .error .EINVAL :=
  ⟨(c7_try_from_raw_classification [1, 0]).1 (by decide),
   (c7_try_from_raw_classification [42, 0, 1]).2.2.2.1 (by decide) (by decide) (by decide)
     (by decide) (by decide) (by decide)⟩

/-! ## C9 -/

/-- Pointwise zip equality of equal-length byte lists is list equality. -/
theorem zip_all_beq_iff (l1 l2 : List Byte) (h : l1.length = l2.length) :
    (((l1.zip l2).all fun q => q.1 == q.2) = true) ↔ l1 = l2 := by
  induction l1 generalizing l2 with
  | nil =>
    cases l2 with
    | nil => simp
    | cons b t2 => simp at h
  | cons a t1 ih =>
    cases l2 with
    | nil => simp at h
    | cons b t2 =>
      simp only [List.length_cons, Nat.succ.injEq] at h
      simp [List.zip_cons_cons, List.all_cons, ih t2 h, And.comm]

/-- C9: the PartialEq of UnixAddr holds exactly when the family tags agree and the
full 108-byte path buffers agree byte for byte; path_len is not consulted. -/
theorem c9_unixaddr_eq_iff (a b : UnixAddr) (ha : a.sun_path.length = 108)
    (hb : b.sun_path.length = 108) :
    UnixAddr.eq a b = true ↔ (a.sun_family = b.sun_family ∧ a.sun_path = b.sun_path) := by
  rw [UnixAddr.eq, Bool.and_eq_true, beq_iff_eq, zip_all_beq_iff _ _ (by rw [ha, hb])]

/-- C9 (witness): two addresses agreeing on family and buffer but with different
path_len fields compare equal. -/
theorem c9_unixaddr_eq_iff_witness :
    UnixAddr.eq ⟨1, List.replicate 108 0, 3⟩ ⟨1, List.replicate 108 0, 5⟩ = true :=
  (c9_unixaddr_eq_iff ⟨1, List.replicate 108 0, 3⟩ ⟨1, List.replicate 108 0, 5⟩
    (by decide) (by decide)).mpr ⟨rfl, rfl⟩

/-! ## C6 -/

/-- C6 (counterexample): the claim quantifies over every path UnixAddr::new accepts,
and UnixAddr::new accepts the empty path; but its serialized form is 2 bytes long
and try_from_raw rejects any buffer of length at most 2 with EINVAL, so the
round trip fails at p = "". -/
theorem c6_counterexample :
    UnixAddr.new ([] : List Byte) = .ok ⟨1, List.replicate 108 0, 0⟩
    ∧ (SockAddr.copy_to_slice (.UnixSocket ⟨1, List.replicate 108 0, 0⟩) 110).1.length = 2
    ∧ SockAddr.try_from_raw
        (SockAddr.copy_to_slice (.UnixSocket ⟨1, List.replicate 108 0, 0⟩) 110).1
      = .error .EINVAL := by
  decide

/-- C6 (amended): for every nonempty valid path p of at most 108 bytes, serializing
UnixAddr::new(p) via copy_to_slice into a buffer of at least the returned length
and parsing those bytes back with try_from_raw yields Some of the identical
UnixAddr. -/
theorem c6_roundtrip_nonempty (p : List Byte) (dstLen : Nat) (h1 : utf8Valid p = true)
    (h2 : p ≠ []) (h3 : p.length ≤ 108) (h4 : p.length + 2 ≤ dstLen) :
    UnixAddr.new p = .ok ⟨1, p ++ List.replicate (108 - p.length) 0, p.length⟩
    ∧ SockAddr.try_from_raw
        (SockAddr.copy_to_slice
          (.UnixSocket ⟨1, p ++ List.replicate (108 - p.length) 0, p.length⟩) dstLen).1
      = .ok (some (.UnixSocket ⟨1, p ++ List.replicate (108 - p.length) 0, p.length⟩)) := by
  have hA : UnixAddr.new p = .ok ⟨1, p ++ List.replicate (108 - p.length) 0, p.length⟩ := by
    rw [UnixAddr.new, if_neg (by simp only [MAX_PATH_LEN]; omega)]
    rfl
  have hu1 : u16le 1 = [(1 : Byte), (0 : Byte)] := by decide
  have hser : (SockAddr.copy_to_slice
      (.UnixSocket ⟨1, p ++ List.replicate (108 - p.length) 0, p.length⟩) dstLen).1
      = (1 : Byte) :: (0 : Byte) :: p := by
    show (UnixAddr.rawBytes _).take (min (p.length + 2) dstLen) = _
    rw [Nat.min_eq_left h4]
    dsimp only [UnixAddr.rawBytes]
    rw [hu1, List.append_assoc, List.cons_append, List.cons_append, List.nil_append,
      show p.length + 2 = p.length + 1 + 1 from rfl, List.take_succ_cons, List.take_succ_cons,
      List.append_assoc, List.take_left]
  refine ⟨hA, ?_⟩
  rw [hser]
  have hf : readU16LE ((1 : Byte) :: (0 : Byte) :: p) = 1 := rfl
  have hp0 : 0 < p.length := List.length_pos.mpr h2
  have hlen3 : ¬(((1 : Byte) :: (0 : Byte) :: p).length ≤ 2) := by
    simp only [List.length_cons]
    omega
  simp only [SockAddr.try_from_raw, hf, if_neg hlen3, PF_MAX]
  norm_num
  simp only [List.drop_succ_cons, List.drop_zero, h1, if_pos, hA]

/-- C6 (witness): the amended round trip at the one-byte path "/". -/
theorem c6_roundtrip_witness :
    UnixAddr.new [47] = .ok ⟨1, [47] ++ List.replicate 107 0, 1⟩
    ∧ SockAddr.try_from_raw
        (SockAddr.copy_to_slice (.UnixSocket ⟨1, [47] ++ List.replicate 107 0, 1⟩) 110).1
      = .ok (some (.UnixSocket ⟨1, [47] ++ List.replicate 107 0, 1⟩)) :=
  c6_roundtrip_nonempty [47] 110 (by decide) (by decide) (by decide) (by decide)

/-! ## C10 -/

/-- A unix address, "q", not in the configured host list. -/
def otherA : SockAddr := .UnixSocket ⟨1, [113] ++ List.replicate 107 0, 1⟩

/-- C10: a router built with a non-stream type while the host path list is
non-empty holds a host socket but no libos socket; bind with a unix address that
is not from the host then reaches the unwrap of the absent libos socket — the
embedding's crash branch, the panic in the source — instead of returning an
errno. -/
theorem c10_bind_crash_reachable :
    UnixSocket.new .SOCK_DGRAM false 0 [hostA] = .ok ⟨none, some (), .Unknown, .SOCK_DGRAM⟩
    ∧ SockAddr.is_from_host otherA [hostA] = false
    ∧ UnixSocket.bind ⟨none, some (), .Unknown, .SOCK_DGRAM⟩ otherA [hostA] stEmpty
        = .crash := by
  decide

end OcclumNet
